import Mathlib

/-!
Verification of the BreezeAgentFramework orchestration core.

Shallow embedding of the pipeline components, translated from the Python
sources:
  - `ToolRegistry` (src/registry/tool_registry.py)
  - `ConversationManager` (src/agents/orchestrator_core/conversation_manager.py)
  - `QueryRewriter` (src/agents/orchestrator_core/query_rewriter.py)
  - `PlanningManager` (src/agents/orchestrator_core/planning_manager.py)
  - `ToolExecutor` (src/agents/orchestrator_core/tool_executor.py)
  - `SynthesisGenerator` (agents/orchestrator_core/synthesis_generator.py)
  - `PromptManager` (prompts/prompt_manager.py)
  - `Orchestrator.aquery_with_history` (src/agents/orchestrator.py)

Python values that the code never inspects (tool argument values, JSON
parameter schemas) are modelled by their textual repr; the language-model
backend is an oracle passed in as a record of functions; thread-pool
completion order is an explicit parameter so that order-independence can be
stated and proved.
-/

namespace Breeze

/-- A Python value the pipeline passes through otherwise uninspected
(`Any`), modelled by its repr together with its Python truthiness — the one
attribute the pipeline ever consults: a `"raise_on_error"` key in a plan
item\x27s argument map binds `execute_tool`\x27s keyword-only flag, which is
then tested with `if raise_on_error:`. -/
structure PyAny where
  repr : String
  truthy : Bool
deriving DecidableEq

/-- Python\x27s `str.strip()`: drop leading and trailing whitespace
(defined over the character list so that it evaluates by kernel
reduction; Python also strips a few rarer unicode spaces, which no code
path here depends on). -/
def py_strip (s : String) : String :=
  String.mk (((s.data.dropWhile Char.isWhitespace).reverse.dropWhile
    Char.isWhitespace).reverse)

/-- Python\x27s `str.lower()` (ASCII case mapping; identity on CJK). -/
def py_lower (s : String) : String :=
  String.mk (s.data.map Char.toLower)

/-- Python\x27s `str.upper()` (ASCII case mapping; identity on CJK). -/
def py_upper (s : String) : String :=
  String.mk (s.data.map Char.toUpper)

/-- Python\x27s `str.startswith(pre)`. -/
def py_startswith (s pre : String) : Bool :=
  pre.data.isPrefixOf s.data

/-- A `**kwargs` dict: keyword-argument names mapped to values. -/
abbrev Kwargs := List (String × PyAny)

/-- A Python exception as a tool handler can raise it: `TypeError`,
`ValueError`, or any other exception class (carrying the class name).
The message field is Python\x27s `str(e)` rendering used in f-strings. -/
inductive PyExc where
  | typeError (msg : String)
  | valueError (msg : String)
  | otherExc (cls : String) (msg : String)
deriving DecidableEq

/-- What a tool handler returns on success, as `execute_tool` sees it:
an actual `str`; a dict/list/int/float/bool/None together with its
`json.dumps` text; such a value on which `json.dumps` raises (the fallback
is `str(result)`); or any other object (`str(result)`). -/
inductive HandlerReturn where
  | pyStr (s : String)
  | jsonValue (dumps : String)
  | jsonFailing (strRepr : String)
  | otherObj (strRepr : String)
deriving DecidableEq

/-- The `handler` argument of `register_tool`: either a Python callable
(modelled as a pure function from kwargs to a raised exception or a return
value) or a non-callable object, which `callable(handler)` rejects. -/
inductive PyHandler where
  | callable (f : Kwargs → Except PyExc HandlerReturn)
  | notCallable (strRepr : String)

/-- The `function` part of an OpenAI function-calling schema entry. -/
structure FunctionDef where
  name : String
  description : String
  parameters : PyAny
deriving DecidableEq

/-- One `\x7b"type": "function", "function": \x7b...\x7d\x7d` schema entry. -/
structure ToolSchema where
  type : String
  function : FunctionDef
deriving DecidableEq

/-- One value of `ToolRegistry._registry`: the schema and the handler. -/
structure ToolEntry where
  schema : ToolSchema
  handler : Kwargs → Except PyExc HandlerReturn

/-- `ToolRegistry._registry`: a Python dict from tool name to entry.
Python dicts preserve insertion order, and assigning to an existing key
replaces the value while keeping the key\x27s original position. -/
abbrev Registry := List (String × ToolEntry)

/-- `d.get(k)` on a Python dict modelled as an ordered association list. -/
def dictGet {β : Type} (d : List (String × β)) (k : String) : Option β :=
  match d with
  | [] => none
  | (k1, v1) :: rest => if k1 = k then some v1 else dictGet rest k

/-- `d[k] = v` on a Python dict: replace in place when the key exists,
append otherwise. -/
def dictSet {β : Type} (d : List (String × β)) (k : String) (v : β) :
    List (String × β) :=
  match d with
  | [] => [(k, v)]
  | (k1, v1) :: rest => if k1 = k then (k, v) :: rest else (k1, v1) :: dictSet rest k v

/-- The keys of a Python dict, in insertion order. -/
def dictKeys {β : Type} (d : List (String × β)) : List String :=
  d.map Prod.fst

/-- Removing a key from a Python dict (the keys of a dict are unique, so
filtering the association list removes exactly that entry). -/
def dictRemove {β : Type} (d : List (String × β)) (k : String) :
    List (String × β) :=
  d.filter (fun p => p.1 != k)

/-- `ERROR_PREFIX` of tool_registry.py: the recognizable error tag. -/
def ERROR_PREFIX_STR : String := "[ToolError]"

/-- `ToolRegistry.register_tool`. Raises `ValueError` when the name is empty
(`not name`; `isinstance(name, str)` always holds in this embedding, where
`name` is typed as a string) or when the handler is not callable; otherwise
builds the schema entry and stores or overwrites it. -/
def register_tool (reg : Registry) (name description : String)
    (parameters : PyAny) (handler : PyHandler) : Except PyExc Registry :=
  if name = "" then
    .error (.valueError "tool name 不可為空，且需為字串。")
  else
    match handler with
    | .notCallable _ => .error (.valueError "handler 必須可呼叫。")
    | .callable f =>
        let schema : ToolSchema :=
          { type := "function"
            function :=
              { name := name, description := description, parameters := parameters } }
        .ok (dictSet reg name { schema := schema, handler := f })

/-- `ToolRegistry.get_llm_tool_schemas`: the stored schemas, in dict order. -/
def get_llm_tool_schemas (reg : Registry) : List ToolSchema :=
  reg.map (fun e => e.2.schema)

/-- What `execute_tool` can let escape when `raise_on_error=True`:
`raise KeyError(msg)` for an unregistered name; a bare `raise` re-raising
the handler\x27s own `TypeError`/`ValueError`; or — in the generic
`except Exception` branch — the `TypeError` CPython raises when `raise msg`
is executed on a plain string (`attempted` records the string the code tried
to raise; the caller sees `TypeError("exceptions must derive from
BaseException")`, not the tagged message). -/
inductive Raised where
  | keyError (msg : String)
  | reraised (e : PyExc)
  | raiseStrTypeError (attempted : String)
deriving DecidableEq

/-- The tail of `execute_tool`: coerce the handler\x27s return value to a
string (`str` unchanged, then `json.dumps`, falling back to `str()`). -/
def coerce_result : HandlerReturn → String
  | .pyStr s => s
  | .jsonValue dumps => dumps
  | .jsonFailing strRepr => strRepr
  | .otherObj strRepr => strRepr

/-- `ToolRegistry.execute_tool`.  Looks the tool up, calls its handler with
the kwargs, and per error class either returns a tagged error string or (in
strict mode) raises, exactly following the source\x27s `except` ladder. -/
def execute_tool (reg : Registry) (tool_name : String)
    (raise_on_error : Bool) (kwargs : Kwargs) : Except Raised String :=
  match dictGet reg tool_name with
  | none =>
      let msg := ERROR_PREFIX_STR ++ " 未註冊的工具: " ++ tool_name
      if raise_on_error then .error (.keyError msg) else .ok msg
  | some entry =>
      match entry.handler kwargs with
      | .error (.typeError e) =>
          let msg := ERROR_PREFIX_STR ++ " 使用工具 \x27" ++ tool_name ++ "\x27 時參數錯誤: " ++ e
          if raise_on_error then .error (.reraised (.typeError e)) else .ok msg
      | .error (.valueError e) =>
          let msg := ERROR_PREFIX_STR ++ " 使用工具 \x27" ++ tool_name ++ "\x27 時參數驗證失敗: " ++ e
          if raise_on_error then .error (.reraised (.valueError e)) else .ok msg
      | .error (.otherExc _ e) =>
          let msg := ERROR_PREFIX_STR ++ " 使用工具 \x27" ++ tool_name ++ "\x27 時執行例外: " ++ e
          if raise_on_error then .error (.raiseStrTypeError msg) else .ok msg
      | .ok result => .ok (coerce_result result)

/-! ## Conversation manager, model oracle and message types -/

/-- One role/content message as passed to the model backend and produced by
`sanitize_history`. -/
structure Message where
  role : String
  content : String
deriving DecidableEq

/-- A value Python\x27s `str()` can render: either an actual `str`, or any
other object together with its `str()` rendering (the int 5 renders "5",
None renders "None"). `sanitize_history` applies `str()` to the raw role and
content before testing them. -/
inductive PyStrable where
  | str (s : String)
  | nonStr (strRepr : String)
deriving DecidableEq

/-- Python\x27s `str()` applied to the value. -/
def PyStrable.toStr : PyStrable → String
  | .str s => s
  | .nonStr r => r

/-- One element of a raw front-end history list: a dict whose "role" and
"content" keys may be missing (`m.get(key, "")` then defaults to "") and
whose values may be arbitrary objects. -/
structure RawTurn where
  role : Option PyStrable
  content : Option PyStrable
deriving DecidableEq

/-- The per-turn body of `ConversationManager.sanitize_history`\x27s loop:
`role = str(m.get("role", "")).lower()`,
`content = str(m.get("content", "")).strip()`, skip when the content is
blank, then coerce the role to "user"/"assistant". Python\x27s `.lower()`
and `.strip()` are modelled by `py_lower` and `py_strip`. -/
def clean_turn (m : RawTurn) : Option Message :=
  let role := py_lower ((m.role.getD (.str "")).toStr)
  let content := py_strip ((m.content.getD (.str "")).toStr)
  if content = "" then none
  else some { role := if role = "user" then "user" else "assistant", content := content }

/-- `ConversationManager.sanitize_history`: clean every turn, then apply
`cleaned[-max_items:]` when `len(cleaned) > max_items`. Python\x27s `-0` is
`0`, so slicing with `max_items = 0` keeps the whole list. -/
def sanitize_history (history : List RawTurn) (max_items : Nat) : List Message :=
  let cleaned := history.filterMap clean_turn
  if max_items < cleaned.length then
    if max_items = 0 then cleaned else cleaned.drop (cleaned.length - max_items)
  else cleaned

/-- The `function` attribute of one tool-call directive. -/
structure ToolCallFunction where
  name : String
  arguments : Kwargs
deriving DecidableEq

/-- One tool-call directive of the model\x27s reply; `function` is `none`
when the object lacks a `function` attribute (`hasattr` fails). -/
structure ToolCall where
  function : Option ToolCallFunction
deriving DecidableEq

/-- The dict returned by `tool_assisted_query`: optional text content and an
optional tool-call list. -/
structure ToolAssistedResult where
  content : Option String
  tool_calls : Option (List ToolCall)
deriving DecidableEq

/-- The model backend (`LLMConnector`) as an oracle: prompt-completion,
chat over a message list, and tool-assisted chat returning optional
tool-call directives. -/
structure LLMConnector where
  single_query : String → String
  chat_with_history : List Message → String
  tool_assisted_query : List Message → List ToolSchema → ToolAssistedResult

/-- The fixed keyword list of `ConversationManager.is_meta_question`. -/
def meta_keywords : List String :=
  ["你是誰", "你的能力", "怎麼使用", "如何使用", "總結對話", "重述",
   "解釋你的步驟", "為什麼這樣回答", "系統說明", "關於你", "幫我摘要",
   "幫我規劃", "請推薦", "請建議", "假如", "假設性問題"]

/-- Python\x27s `k in q` substring test. -/
def str_contains (q k : String) : Bool :=
  decide (List.IsInfix k.toList q.toList)

/-- The classification together with the number of model calls it cost. -/
structure MetaDecision where
  is_meta : Bool
  llm_calls : Nat
deriving DecidableEq

/-- `ConversationManager.is_meta_question`: blank questions are not meta;
a keyword hit is meta immediately; otherwise ask the model for META/TASK and
test whether the upper-cased trimmed answer starts with "META". The
`history` parameter is accepted but unused by the source. -/
def is_meta_question (llm : LLMConnector) (question : String)
    (history : List Message) : MetaDecision :=
  let _ := history
  let q := py_strip question
  if q = "" then { is_meta := false, llm_calls := 0 }
  else if meta_keywords.any (fun k => str_contains q k) then
    { is_meta := true, llm_calls := 0 }
  else
    let prompt :=
      "請判斷以下問題是否屬於元對話（關於助理/對話/說明/摘要/重述）。\n"
        ++ "只輸出一個詞：META 或 TASK。\n"
        ++ "問題：" ++ q
    let label := py_upper (py_strip (llm.single_query prompt))
    { is_meta := py_startswith label "META", llm_calls := 1 }

/-- `ConversationManager.handle_meta_conversation`: append the stripped
question as a user turn and return the model\x27s stripped chat reply. -/
def handle_meta_conversation (llm : LLMConnector) (complex_question : String)
    (history : List Message) : String :=
  let meta_messages := history ++ [{ role := "user", content := py_strip complex_question }]
  py_strip (llm.chat_with_history meta_messages)

/-! ## Prompt manager -/

/-- `PromptManager`\x27s state: the expert and common prompt texts loaded
from `prompt.json` (the configuration file is external to the core, so its
contents are parameters of the embedding; `expert_prompts` is a dict). -/
structure PromptConfig where
  expert_prompts : List (String × String)
  common_prompts : List String

/-- `PromptManager._history_to_text`: "user" renders 使用者, any other role
renders 助理 (`role_map.get` with default), blank contents are skipped. -/
def history_to_text (history : List Message) : String :=
  let lines := history.filterMap (fun m =>
    let role := if m.role = "user" then "使用者" else "助理"
    let content := py_strip m.content
    if content = "" then none else some (role ++ ": " ++ content))
  String.intercalate "\n" lines

/-- `PromptManager.build_query_rewriter_prompt` (the f-string template with
its literal indentation; `history_text` falls back to 無對話歷史). -/
def build_query_rewriter_prompt (history : List Message) (query : String) : String :=
  let history_text := if history.isEmpty then "無對話歷史" else history_to_text history
  "你是一位專業的問句重寫助理。請根據對話歷史，將使用者的問句重寫得更清楚、更具體。\n\n"
    ++ "        對話歷史：\n        " ++ history_text ++ "\n\n"
    ++ "        原始問句：" ++ query ++ "\n\n"
    ++ "        請重寫這個問句，使其：\n"
    ++ "        1. 更加清楚明確\n"
    ++ "        2. 包含必要的背景資訊\n"
    ++ "        3. 適合進行查詢和工具呼叫\n"
    ++ "        4. 保持原意不變\n\n"
    ++ "        只輸出重寫後的問句，不要加任何解釋："

/-- `PromptManager.build_planning_prompt` (tool list rendered one per line,
then the f-string template; the doubled braces of the source render as
literal braces in the prompt). -/
def build_planning_prompt (question : String) (tool_schemas : List ToolSchema) : String :=
  let tools_description := String.intercalate "\n"
    (tool_schemas.map (fun schema =>
      "- " ++ schema.function.name ++ ": " ++ schema.function.description))
  "\n        你是AI助理，負責分析使用者問題並選擇最合適的工具組合。\n\n"
    ++ "        === 可用工具 ===\n        " ++ tools_description ++ "\n\n"
    ++ "        === 使用者問題 ===\n        " ++ question ++ "\n\n"
    ++ "        === 工具呼叫規則 ===\n"
    ++ "        依據使用者問題判斷，如果需要調用多個工具，使用 planner規劃方式，planner非工具名稱，而是會回傳一個包含工具名稱和參數的列表： \n        \n"
    ++ "        planner(plan=[\n"
    ++ "            \x7b\"tool_name\": \"第1個工具\", \"parameters\": \x7b參數\x7d\x7d,\n"
    ++ "            \x7b\"tool_name\": \"第2個工具\", \"parameters\": \x7b參數\x7d\x7d\n"
    ++ "        ])\n        "

/-- The multi-source-integration instruction appended by
`_compose_expert_synthesis_prompt` when more than one tool was used. -/
def multi_tool_instruction : String :=
  "你需要整合多個工具的資訊，提供一個完整、親切的完整回答。"

/-- The expert-block section of `_compose_expert_synthesis_prompt`\x27s
`prompt_parts`: for each used tool that is a key of `expert_prompts`, its
block followed by a blank line; other names append nothing. -/
def expert_blocks (pm : PromptConfig) (used_tools : List String) : List String :=
  used_tools.flatMap (fun tool =>
    match dictGet pm.expert_prompts tool with
    | some p => [p, ""]
    | none => [])

/-- The `prompt_parts` list built by
`PromptManager._compose_expert_synthesis_prompt`: the common prompts, the
multi-source-integration instruction (with a blank line) when
`len(used_tools) > 1`, and the expert blocks of the used tools. -/
def compose_expert_synthesis_parts (pm : PromptConfig) (used_tools : List String) :
    List String :=
  pm.common_prompts
    ++ (if used_tools.length > 1 then [multi_tool_instruction, ""] else [])
    ++ expert_blocks pm used_tools

/-- `PromptManager._compose_expert_synthesis_prompt`: the parts joined by
newlines. -/
def compose_expert_synthesis_prompt (pm : PromptConfig) (used_tools : List String) :
    String :=
  String.intercalate "\n" (compose_expert_synthesis_parts pm used_tools)

/-- Numbered (`i+1`, value) pairs, as `enumerate` yields them shifted by
`k`; also reused to model the executor\x27s indexed futures. -/
def index_from {α : Type} (k : Nat) : List α → List (Nat × α)
  | [] => []
  | a :: rest => (k, a) :: index_from (k + 1) rest

/-- `PromptManager.build_synthesis_prompt`: `used_tools` defaults to the
empty list, the execution results are numbered from 1, and the expert
instructions precede the original question and the background material. -/
def build_synthesis_prompt (pm : PromptConfig) (original_question : String)
    (execution_results : List String) (used_tools : List String) : String :=
  let results_text := String.intercalate "\n"
    ((index_from 1 execution_results).map (fun p => toString p.1 ++ ". " ++ p.2))
  let expert_synthesis_instructions := compose_expert_synthesis_prompt pm used_tools
  "\n        " ++ expert_synthesis_instructions ++ "\n\n"
    ++ "        原始問題：" ++ original_question ++ "\n\n"
    ++ "        背景資料：\n        " ++ results_text ++ "\n\n"
    ++ "        請根據以上背景資料，生成一個完整、親切的答案。\n        "

/-! ## Query rewriter -/

/-- `QueryRewriter.rewrite_query`: build the rewriting prompt, ask the model
once, and fall back to the original query when the model output is falsy or
blank after stripping. -/
def rewrite_query (llm : LLMConnector) (history : List Message) (query : String) :
    String :=
  let prompt := build_query_rewriter_prompt history query
  let rewritten_query := llm.single_query prompt
  if rewritten_query = "" ∨ py_strip rewritten_query = "" then query
  else rewritten_query

/-! ## Planner -/

/-- A planned tool invocation (`modle/execution_plan.py`). -/
structure PlanItem where
  tool_name : String
  arguments : Kwargs
deriving DecidableEq

/-- The ordered plan (`modle/execution_plan.py`). -/
structure ExecutionPlan where
  plan_items : List PlanItem
  description : String
deriving DecidableEq

/-- A planning outcome together with the number of model calls it cost. -/
structure PlanResult where
  plan : ExecutionPlan
  llm_calls : Nat
deriving DecidableEq

/-- `PlanningManager._parse_execution_plan`: keep every directive that has a
`function` attribute, in emission order; a falsy or non-list `tool_calls`
yields no items (`filterMap` of an empty list is also empty, so the empty
list needs no separate branch). -/
def parse_execution_plan (result : ToolAssistedResult) : List PlanItem :=
  match result.tool_calls with
  | some tool_calls =>
      tool_calls.filterMap (fun tc =>
        tc.function.map (fun f => { tool_name := f.name, arguments := f.arguments }))
  | none => []

/-- The history-independent tail of the planning user message. -/
def planning_notice : String :=
  "注意：請仔細判斷當前問題是否為獨立問題。如果問題涉及完全不同的目的地或主題，請忽略歷史資訊，只根據當前問題選擇工具。\n\n當前問題："

/-- `PlanningManager.plan_question`: `ValueError` on a blank question; an
empty plan with the note 沒有可用工具 and no model call when no tool schema
is registered; otherwise one `tool_assisted_query` call whose directives are
parsed into the plan (`isinstance(question, str)` always holds here). -/
def plan_question (llm : LLMConnector) (reg : Registry) (question : String)
    (history : List Message) : Except PyExc PlanResult :=
  if py_strip question = "" then
    .error (.valueError "question must be a non-empty string")
  else
    let tool_schemas := get_llm_tool_schemas reg
    if tool_schemas.isEmpty then
      .ok { plan := { plan_items := [], description := "沒有可用工具" }, llm_calls := 0 }
    else
      let planning_prompt := build_planning_prompt question tool_schemas
      let user_content :=
        if history.isEmpty then planning_notice ++ question
        else "對話歷史：" ++ history_to_text history ++ "\n\n" ++ planning_notice ++ question
      let messages : List Message :=
        [{ role := "system", content := planning_prompt },
         { role := "user", content := user_content }]
      let result := llm.tool_assisted_query messages tool_schemas
      let plan_items := parse_execution_plan result
      let n := plan_items.length
      .ok { plan := { plan_items := plan_items,
                      description := "制定了包含 " ++ toString n ++ " 個工具調用的執行計畫" }
            llm_calls := 1 }

/-! ## Executor

`ToolExecutor.execute_plan` submits one future per plan item to a
`ThreadPoolExecutor(max_workers=5)` and then reads `future.result()` future
by future, in submission order.  Each future computes
`_execute_single_tool(plan_item, i)` — a pure value in this embedding — so
a run of the pool is modelled by its completion log: the (future index,
future value) pairs in whatever order the worker threads finished them. The
collection loop is addressed by future (index), not by completion order. -/

/-- The value Python binds to `execute_tool`\x27s keyword-only
`raise_on_error` parameter when called as `execute_tool(tool_name,
**parameters)`: the truthiness of a `"raise_on_error"` key of the argument
map, or the default `False` when the key is absent. -/
def bound_raise_flag (arguments : Kwargs) : Bool :=
  match dictGet arguments "raise_on_error" with
  | some v => v.truthy
  | none => false

/-- `ToolExecutor._execute_single_tool` (the `index` argument is only
printed): a blank tool name short-circuits to a literal error string;
otherwise `execute_tool(tool_name, **parameters)` runs — Python routes a
`"raise_on_error"` key of the argument map to the keyword-only flag (so it
never reaches the handler), and with a truthy flag the tool\x27s failure
escapes the future and re-raises at `future.result()`. A returned string
passes through `str()` unchanged. -/
def execute_single_tool (reg : Registry) (plan_item : PlanItem) :
    Except Raised String :=
  if plan_item.tool_name = "" then .ok "錯誤: 工具名稱缺失"
  else
    execute_tool reg plan_item.tool_name (bound_raise_flag plan_item.arguments)
      (dictRemove plan_item.arguments "raise_on_error")

/-- The string `_execute_single_tool` produces when the bound
`raise_on_error` flag is falsy — the case in which `execute_tool` never
raises (`execute_tool_false_is_ok`), so the `.error` fallback is
unreachable. -/
def execute_single_tool_value (reg : Registry) (plan_item : PlanItem) : String :=
  if plan_item.tool_name = "" then "錯誤: 工具名稱缺失"
  else
    match execute_tool reg plan_item.tool_name false
        (dictRemove plan_item.arguments "raise_on_error") with
    | .ok s => s
    | .error _ => ""

/-- The outcomes the submitted futures compute: future `i` holds the result
(or the escaped exception) for `plan_items[i]`. -/
def future_values (reg : Registry) (items : List PlanItem) :
    List (Except Raised String) :=
  items.map (execute_single_tool reg)

/-- `completions.lookup i`: the completed outcome of future `i`, wherever
in the completion log it finished. -/
def lookup_index {β : Type} (completions : List (Nat × β)) (i : Nat) : Option β :=
  match completions with
  | [] => none
  | (j, v) :: rest => if j = i then some v else lookup_index rest i

/-- The body of the collection loop: `future.result()` yields the stored
value or re-raises the future\x27s exception, so the first raising future
(in submission order) aborts the loop. -/
def collect_results : List (Except Raised String) → Except Raised (List String)
  | [] => .ok []
  | .error e :: _ => .error e
  | .ok s :: rest => (collect_results rest).map (fun tail => s :: tail)

/-- The collection loop `for future in futures: append(future.result())`:
slot `i` is read from the completion log by future index, in submission
order, raising at the first failed future. -/
def collect_in_plan_order (n : Nat)
    (completions : List (Nat × Except Raised String)) :
    Except Raised (List String) :=
  collect_results ((List.range n).filterMap (lookup_index completions))

/-- The observable outcome of one `execute_plan` call: the returned list,
whether a `ThreadPoolExecutor` was entered, and the tool names actually
passed on to `ToolRegistry.execute_tool` (blank names short-circuit before
the registry). -/
structure ExecOutcome where
  results : List String
  pool_created : Bool
  invoked_tools : List String
deriving DecidableEq

/-- `ToolExecutor.execute_plan`, parametrised by the pool\x27s completion
log. An empty plan returns `[]` before the pool is created; an exception
escaping a future re-raises out of the whole call; the theorems assume the
log is faithful (a permutation of the indexed future outcomes). -/
def execute_plan (reg : Registry) (execution_plan : ExecutionPlan)
    (completions : List (Nat × Except Raised String)) :
    Except Raised ExecOutcome :=
  -- the registry enters through the future outcomes; the faithfulness of
  -- the completion log to `future_values reg` is a hypothesis of the theorems
  let _ := reg
  if execution_plan.plan_items.isEmpty then
    .ok { results := [], pool_created := false, invoked_tools := [] }
  else
    match collect_in_plan_order execution_plan.plan_items.length completions with
    | .error e => .error e
    | .ok rs =>
        .ok { results := rs
              pool_created := true
              invoked_tools := execution_plan.plan_items.filterMap (fun item =>
                if item.tool_name = "" then none else some item.tool_name) }

/-! ## Synthesizer -/

/-- `SynthesisGenerator.synthesize_result`: `ValueError` on a blank
question (`isinstance` checks always hold here, and `execution_results` is
a list by type); otherwise one model call on the composed synthesis
prompt, returned verbatim. -/
def synthesize_result (llm : LLMConnector) (pm : PromptConfig)
    (original_question : String) (execution_results : List String)
    (used_tools : List String) : Except PyExc String :=
  if py_strip original_question = "" then
    .error (.valueError "original_question must be a non-empty string")
  else
    let synthesis_prompt :=
      build_synthesis_prompt pm original_question execution_results used_tools
    .ok (llm.single_query synthesis_prompt)

/-! ## Orchestrator -/

/-- What one `aquery_with_history` call returns and what it did on the way:
the answer, how many model calls the rewrite and planning stages made, and
the tool names handed to the registry. -/
structure OrchOutcome where
  answer : String
  rewrite_llm_calls : Nat
  planning_llm_calls : Nat
  tool_invocations : List String
deriving DecidableEq

/-- What can propagate out of `aquery_with_history`: a Python exception
raised by a pipeline stage, or an exception re-raised out of the
executor\x27s futures. -/
inductive OrchError where
  | pyExc (e : PyExc)
  | raised (e : Raised)
deriving DecidableEq

/-- `Orchestrator.aquery_with_history`: sanitize the history (max 20), route
meta questions straight to `handle_meta_conversation`, and otherwise run
rewrite → plan → execute → synthesize, synthesizing with the original (not
the rewritten) question. `isinstance(complex_question, str)` always holds in
this embedding; `completions` is the executor pool\x27s completion log. -/
def aquery_with_history (llm : LLMConnector) (reg : Registry) (pm : PromptConfig)
    (complex_question : String) (history : List RawTurn)
    (completions : List (Nat × Except Raised String)) :
    Except OrchError OrchOutcome :=
  let sanitized_history := sanitize_history history 20
  if (is_meta_question llm complex_question sanitized_history).is_meta then
    .ok { answer := handle_meta_conversation llm complex_question sanitized_history
          rewrite_llm_calls := 0
          planning_llm_calls := 0
          tool_invocations := [] }
  else
    let rewritten_question := rewrite_query llm sanitized_history complex_question
    match plan_question llm reg rewritten_question sanitized_history with
    | .error e => .error (.pyExc e)
    | .ok planned =>
        match execute_plan reg planned.plan completions with
        | .error e => .error (.raised e)
        | .ok outcome =>
            let used_tools := planned.plan.plan_items.map (fun item => item.tool_name)
            match synthesize_result llm pm complex_question outcome.results used_tools with
            | .error e => .error (.pyExc e)
            | .ok synthesis =>
                .ok { answer := synthesis
                      rewrite_llm_calls := 1
                      planning_llm_calls := planned.llm_calls
                      tool_invocations := outcome.invoked_tools }

/-! ## Shared concrete instances for the witnesses -/

/-- A model oracle whose completion is whitespace-only and whose other
channels return nothing. -/
def blank_llm : LLMConnector :=
  { single_query := fun _ => "   "
    chat_with_history := fun _ => ""
    tool_assisted_query := fun _ _ => { content := none, tool_calls := none } }

/-- A model oracle answering TASK to classification prompts and a fixed
direct reply in chat. -/
def demo_llm : LLMConnector :=
  { single_query := fun _ => "TASK"
    chat_with_history := fun _ => " 我是AI助理，很高興為您服務。"
    tool_assisted_query := fun _ _ => { content := none, tool_calls := none } }

/-- A registered tool whose handler always raises `RuntimeError("kaboom")`. -/
def boom_entry : ToolEntry :=
  { schema :=
      { type := "function"
        function := { name := "boom", description := "always fails", parameters := { repr := "", truthy := false } } }
    handler := fun _ => .error (.otherExc "RuntimeError" "kaboom") }

/-- A registry holding just the failing tool. -/
def boom_registry : Registry := [("boom", boom_entry)]

/-- A tool that returns the fixed string `out`. -/
def echo_entry (name out : String) : ToolEntry :=
  { schema :=
      { type := "function"
        function := { name := name, description := "echoes", parameters := { repr := "", truthy := false } } }
    handler := fun _ => .ok (.pyStr out) }

/-- A registry with two echoing tools. -/
def two_tool_registry : Registry :=
  [("a", echo_entry "a" "A"), ("b", echo_entry "b" "B")]

/-- A two-item plan over `two_tool_registry`. -/
def two_tool_plan : ExecutionPlan :=
  { plan_items := [{ tool_name := "a", arguments := [] },
                   { tool_name := "b", arguments := [] }]
    description := "兩個工具" }

/-- The repr of an empty JSON parameter object (an empty dict is falsy). -/
def json_empty : PyAny := { repr := "\x7b\x7d", truthy := false }

/-- A truthy Python value, as a model-produced argument map can carry
under the key "raise_on_error". -/
def py_true : PyAny := { repr := "True", truthy := true }

/-- A one-item plan whose argument map binds the executor\x27s keyword-only
`raise_on_error` flag to a truthy value. -/
def raise_plan : ExecutionPlan :=
  { plan_items := [{ tool_name := "boom",
                     arguments := [("raise_on_error", py_true)] }]
    description := "帶 raise_on_error 參數的計畫" }

/-- Re-inject an already-sanitized turn as a raw turn (both fields are
actual strings). -/
def msg_to_raw (t : Message) : RawTurn :=
  { role := some (.str t.role), content := some (.str t.content) }

/-- A raw history for the sanitizing witness: an upper-cased role with
padded content, then an unknown role. -/
def c3_history : List RawTurn :=
  [{ role := some (.str "USER"), content := some (.str " 你好 ") },
   { role := some (.str "bot"), content := some (.str "哈囉") }]

/-- The second raw turn of `c3_history`. -/
def c3_raw : RawTurn := { role := some (.str "bot"), content := some (.str "哈囉") }

/-- What `clean_turn` makes of `c3_raw`. -/
def c3_msg : Message := { role := "assistant", content := "哈囉" }

/-- The entry `register_tool` stores: the OpenAI-style schema wrapper
around (name, description, parameters) plus the handler (a proof-side
abbreviation for the literal built inside `register_tool`). -/
def registered_entry (n d : String) (p : PyAny)
    (f : Kwargs → Except PyExc HandlerReturn) : ToolEntry :=
  { schema :=
      { type := "function"
        function := { name := n, description := d, parameters := p } }
    handler := f }

/-- Every stored entry is keyed by its own schema name; `register_tool`
establishes and preserves this. -/
def WellFormedRegistry (reg : Registry) : Prop :=
  ∀ p ∈ reg, (p.2).schema.function.name = p.1

/-- A prompt-manager configuration used by the witnesses. -/
def demo_prompt_config : PromptConfig :=
  { expert_prompts := [("weather", "你是天氣查詢專家。")]
    common_prompts := ["你是AI助理。"] }

/-- A first handler for the duplicate-registration witness. -/
def add_f1 : Kwargs → Except PyExc HandlerReturn := fun _ => .ok (.pyStr "1")

/-- A second handler for the duplicate-registration witness. -/
def add_f2 : Kwargs → Except PyExc HandlerReturn := fun _ => .ok (.pyStr "2")

/-- The registry after the first registration of "add". -/
def add_reg1 : Registry :=
  [("add",
    { schema :=
        { type := "function"
          function := { name := "add", description := "加法一", parameters := json_empty } }
      handler := add_f1 })]

/-- The registry after "add" is overwritten by the second registration. -/
def add_reg2 : Registry :=
  [("add",
    { schema :=
        { type := "function"
          function := { name := "add", description := "加法二", parameters := json_empty } }
      handler := add_f2 })]

/-- In non-strict mode `execute_tool` always returns a string: every error
branch is contained as a tagged message, so `_execute_single_tool`\x27s
`.error` branch is unreachable. -/
theorem execute_tool_false_is_ok (reg : Registry) (tool_name : String)
    (kwargs : Kwargs) :
    ∃ s, execute_tool reg tool_name false kwargs = .ok s := by
  unfold execute_tool
  cases dictGet reg tool_name with
  | none => exact ⟨_, rfl⟩
  | some entry =>
      cases hh : entry.handler kwargs with
      | error e => cases e <;> simp [hh]
      | ok r => simp [hh]

/-! ## C2: handler exceptions at the registry boundary -/

/-- C2: for every registered tool whose handler raises an exception that is
neither a `TypeError` nor a `ValueError`, `execute_tool` with
`raise_on_error=False` returns the `[ToolError]`-tagged error string instead
of propagating, and with `raise_on_error=True` the code reaches `raise msg`
on a plain string — so what escapes is CPython\x27s
`TypeError("exceptions must derive from BaseException")`, modelled by
`Raised.raiseStrTypeError`, not a tagged result. -/
theorem C2_handler_exception_contained
    (reg : Registry) (tool_name : String) (entry : ToolEntry) (kwargs : Kwargs)
    (cls emsg : String)
    (hget : dictGet reg tool_name = some entry)
    (hraise : entry.handler kwargs = .error (.otherExc cls emsg)) :
    execute_tool reg tool_name false kwargs =
      .ok (ERROR_PREFIX_STR ++ " 使用工具 \x27" ++ tool_name ++ "\x27 時執行例外: " ++ emsg)
  ∧ execute_tool reg tool_name true kwargs =
      .error (.raiseStrTypeError
        (ERROR_PREFIX_STR ++ " 使用工具 \x27" ++ tool_name ++ "\x27 時執行例外: " ++ emsg)) := by
  unfold execute_tool
  rw [hget]
  simp [hraise]

/-- C2 witness: the failing tool evaluated concretely. -/
theorem C2_handler_exception_contained_witness :
    execute_tool boom_registry "boom" false [] =
      .ok ("[ToolError] 使用工具 \x27boom\x27 時執行例外: kaboom")
  ∧ execute_tool boom_registry "boom" true [] =
      .error (.raiseStrTypeError ("[ToolError] 使用工具 \x27boom\x27 時執行例外: kaboom")) :=
  C2_handler_exception_contained boom_registry "boom" boom_entry []
    "RuntimeError" "kaboom" rfl rfl

/-! ## C5: planning guards -/

/-- C5: `plan_question` fails with `ValueError` on a blank question, and on
a non-blank question with an empty tool-schema list it returns a zero-item
plan with the note 沒有可用工具 and makes no model call. -/
theorem C5_plan_question_guards
    (llm : LLMConnector) (reg : Registry) (question : String) (history : List Message) :
    (py_strip question = "" →
      plan_question llm reg question history =
        .error (.valueError "question must be a non-empty string"))
  ∧ (py_strip question ≠ "" → get_llm_tool_schemas reg = [] →
      plan_question llm reg question history =
        .ok { plan := { plan_items := [], description := "沒有可用工具" }
              llm_calls := 0 }) := by
  constructor
  · intro h
    unfold plan_question
    simp [h]
  · intro h hs
    unfold plan_question
    simp [h, hs]

/-- C5 witness: both guards at concrete inputs (empty registry). -/
theorem C5_plan_question_guards_witness :
    plan_question blank_llm [] "" [] =
      .error (.valueError "question must be a non-empty string")
  ∧ plan_question blank_llm [] "台北天氣如何？" [] =
      .ok { plan := { plan_items := [], description := "沒有可用工具" }, llm_calls := 0 } :=
  ⟨(C5_plan_question_guards blank_llm [] "" []).1 rfl,
   (C5_plan_question_guards blank_llm [] "台北天氣如何？" []).2 (by decide) rfl⟩

/-! ## C8: blank rewrite output falls back to the original question -/

/-- C8: whenever the model backend answers the rewriting prompt with an
empty or whitespace-only string, `rewrite_query` returns the original
question unchanged. -/
theorem C8_rewrite_blank_output_returns_original
    (llm : LLMConnector) (history : List Message) (query : String)
    (hblank : py_strip (llm.single_query (build_query_rewriter_prompt history query)) = "") :
    rewrite_query llm history query = query := by
  unfold rewrite_query
  simp [hblank]

/-- C8 witness: a whitespace-only completion leaves the question as is. -/
theorem C8_rewrite_blank_output_returns_original_witness :
    rewrite_query blank_llm [] "今天天氣如何？" = "今天天氣如何？" :=
  C8_rewrite_blank_output_returns_original blank_llm [] "今天天氣如何？" (by decide)

/-! ## C10: blank questions are never meta and cost no model call -/

/-- C10: for every empty or whitespace-only question (blank after
stripping) and every history, `is_meta_question` returns `False` without
calling the model. -/
theorem C10_blank_question_not_meta
    (llm : LLMConnector) (question : String) (history : List Message)
    (h : py_strip question = "") :
    is_meta_question llm question history = { is_meta := false, llm_calls := 0 } := by
  unfold is_meta_question
  simp [h]

/-- C10 witness: a whitespace-only question. -/
theorem C10_blank_question_not_meta_witness :
    is_meta_question demo_llm " \t " [] = { is_meta := false, llm_calls := 0 } :=
  C10_blank_question_not_meta demo_llm " \t " [] (by decide)

/-! ## Dict lemmas -/

/-- A successful lookup names a pair of the dict. -/
theorem dictGet_mem {β : Type} {d : List (String × β)} {k : String} {v : β}
    (h : dictGet d k = some v) : (k, v) ∈ d := by
  induction d with
  | nil => simp [dictGet] at h
  | cons p rest ih =>
      obtain ⟨k1, v1⟩ := p
      by_cases hk : k1 = k
      · subst hk
        simp [dictGet] at h
        simp [h]
      · simp [dictGet, hk] at h
        exact List.mem_cons_of_mem _ (ih h)

/-- Every pair of an updated dict is the new pair or an old one. -/
theorem mem_dictSet {β : Type} {d : List (String × β)} {k : String} {v : β}
    {p : String × β} (h : p ∈ dictSet d k v) : p = (k, v) ∨ p ∈ d := by
  induction d with
  | nil => simp [dictSet] at h; simp [h]
  | cons q rest ih =>
      obtain ⟨k1, v1⟩ := q
      by_cases hk : k1 = k
      · subst hk
        simp [dictSet] at h
        rcases h with h | h
        · exact Or.inl h
        · exact Or.inr (List.mem_cons_of_mem _ h)
      · simp [dictSet, hk] at h
        rcases h with h | h
        · exact Or.inr (by simp [h])
        · rcases ih h with h2 | h2
          · exact Or.inl h2
          · exact Or.inr (List.mem_cons_of_mem _ h2)

/-- Assigning the same key twice keeps only the second value. -/
theorem dictSet_dictSet_same {β : Type} (d : List (String × β)) (k : String)
    (v₁ v₂ : β) : dictSet (dictSet d k v₁) k v₂ = dictSet d k v₂ := by
  induction d with
  | nil => simp [dictSet]
  | cons q rest ih =>
      obtain ⟨k1, w⟩ := q
      by_cases hk : k1 = k
      · simp [dictSet, hk]
      · simp [dictSet, hk, ih]

/-- Updating keeps the key order: an existing key stays in place, a new key
is appended. -/
theorem dictKeys_dictSet {β : Type} (d : List (String × β)) (k : String) (v : β) :
    dictKeys (dictSet d k v) =
      if k ∈ dictKeys d then dictKeys d else dictKeys d ++ [k] := by
  induction d with
  | nil => simp [dictSet, dictKeys]
  | cons q rest ih =>
      obtain ⟨k1, w⟩ := q
      by_cases hk : k1 = k
      · subst hk
        simp [dictSet, dictKeys]
      · have hk2 : ¬(k = k1) := fun h => hk h.symm
        have hset : dictSet ((k1, w) :: rest) k v = (k1, w) :: dictSet rest k v := by
          simp [dictSet, hk]
        rw [hset]
        have hcons : dictKeys ((k1, w) :: dictSet rest k v)
            = k1 :: dictKeys (dictSet rest k v) := rfl
        rw [hcons, ih]
        by_cases hmem : k ∈ dictKeys rest
        · rw [if_pos hmem, if_pos (show k ∈ dictKeys ((k1, w) :: rest) from
            List.mem_cons_of_mem k1 hmem)]
          rfl
        · have hout : k ∉ dictKeys ((k1, w) :: rest) := by
            simp [dictKeys, hk2]
            simpa [dictKeys] using hmem
          rw [if_neg hmem, if_neg hout]
          rfl

/-! ## C6: synthesis-prompt composition -/

/-- Used tool names without a registered expert block contribute nothing to
the expert section: filtering them away leaves the blocks unchanged. -/
theorem expert_blocks_filter (pm : PromptConfig) (used_tools : List String) :
    expert_blocks pm used_tools =
      expert_blocks pm
        (used_tools.filter (fun t => (dictGet pm.expert_prompts t).isSome)) := by
  induction used_tools with
  | nil => rfl
  | cons t rest ih =>
      unfold expert_blocks at ih ⊢
      cases hdg : dictGet pm.expert_prompts t with
      | none => simp [List.filter_cons, hdg, ih]
      | some p => simp [List.filter_cons, hdg, ih]

/-- C6: the composed synthesis prompt parts contain the
multi-source-integration instruction exactly when more than one tool name
was used (the instruction text itself occurring nowhere in the
configuration), and used tools without a registered expert block contribute
nothing to the expert section. -/
theorem C6_multi_source_instruction
    (pm : PromptConfig) (used_tools : List String)
    (hcommon : multi_tool_instruction ∉ pm.common_prompts)
    (hexpert : ∀ q ∈ pm.expert_prompts, q.2 ≠ multi_tool_instruction) :
    (multi_tool_instruction ∈ compose_expert_synthesis_parts pm used_tools ↔
        used_tools.length > 1)
  ∧ expert_blocks pm used_tools =
      expert_blocks pm
        (used_tools.filter (fun t => (dictGet pm.expert_prompts t).isSome)) := by
  have hne : multi_tool_instruction ≠ "" := by decide
  have hblocks : multi_tool_instruction ∉ expert_blocks pm used_tools := by
    intro hmem
    unfold expert_blocks at hmem
    rw [List.mem_flatMap] at hmem
    obtain ⟨t, _, hmem2⟩ := hmem
    cases hdg : dictGet pm.expert_prompts t with
    | none => rw [hdg] at hmem2; simp at hmem2
    | some p =>
        rw [hdg] at hmem2
        simp at hmem2
        rcases hmem2 with h | h
        · exact hexpert _ (dictGet_mem hdg) h.symm
        · exact hne h
  constructor
  · constructor
    · intro hmem
      unfold compose_expert_synthesis_parts at hmem
      rcases List.mem_append.1 hmem with h | h
      · rcases List.mem_append.1 h with h2 | h2
        · exact absurd h2 hcommon
        · by_cases hl : used_tools.length > 1
          · exact hl
          · rw [if_neg hl] at h2
            simp at h2
      · exact absurd h hblocks
    · intro hl
      unfold compose_expert_synthesis_parts
      rw [if_pos hl]
      apply List.mem_append.2
      apply Or.inl
      apply List.mem_append.2
      apply Or.inr
      simp
  · exact expert_blocks_filter pm used_tools

/-- C6 witness: one matched and one unmatched tool name. -/
theorem C6_multi_source_instruction_witness :
    (multi_tool_instruction ∈
        compose_expert_synthesis_parts demo_prompt_config ["weather", "wiki"] ↔
      (["weather", "wiki"] : List String).length > 1)
  ∧ expert_blocks demo_prompt_config ["weather", "wiki"] =
      expert_blocks demo_prompt_config
        ((["weather", "wiki"] : List String).filter
          (fun t => (dictGet demo_prompt_config.expert_prompts t).isSome)) :=
  C6_multi_source_instruction demo_prompt_config ["weather", "wiki"]
    (by decide) (by decide)

/-! ## C7: registration semantics and the schema list -/

/-- For a well-formed registry the schema names list the keys, in order. -/
theorem schemas_names_eq_keys (reg : Registry) (hwf : WellFormedRegistry reg) :
    (get_llm_tool_schemas reg).map (fun s => s.function.name) = dictKeys reg := by
  unfold get_llm_tool_schemas dictKeys
  rw [List.map_map]
  exact List.map_congr_left (fun p hp => hwf p hp)

/-- C7: `register_tool` rejects an empty name and a non-callable handler
with `ValueError`; registering the same name twice is the same as
registering only the second entry; and after a registration the schema list
still has pairwise-distinct names in registration order (an existing key
keeps its position, a new key is appended) with exactly one entry for the
registered name. -/
theorem C7_register_semantics :
    (∀ (reg : Registry) (d : String) (p : PyAny) (hdl : PyHandler),
        register_tool reg "" d p hdl =
          .error (.valueError "tool name 不可為空，且需為字串。"))
  ∧ (∀ (reg : Registry) (n d : String) (p : PyAny) (r : String), n ≠ "" →
        register_tool reg n d p (.notCallable r) =
          .error (.valueError "handler 必須可呼叫。"))
  ∧ (∀ (reg reg₁ : Registry) (n d₁ d₂ : String) (p₁ p₂ : PyAny)
        (f₁ f₂ : Kwargs → Except PyExc HandlerReturn),
        register_tool reg n d₁ p₁ (.callable f₁) = .ok reg₁ →
        register_tool reg₁ n d₂ p₂ (.callable f₂) =
          register_tool reg n d₂ p₂ (.callable f₂))
  ∧ (∀ (reg reg' : Registry) (n d : String) (p : PyAny)
        (f : Kwargs → Except PyExc HandlerReturn),
        (dictKeys reg).Nodup → WellFormedRegistry reg →
        register_tool reg n d p (.callable f) = .ok reg' →
        (dictKeys reg').Nodup ∧ WellFormedRegistry reg'
          ∧ (get_llm_tool_schemas reg').map (fun s => s.function.name) = dictKeys reg'
          ∧ dictKeys reg' =
              (if n ∈ dictKeys reg then dictKeys reg else dictKeys reg ++ [n])
          ∧ ((get_llm_tool_schemas reg').map (fun s => s.function.name)).count n = 1) := by
  refine ⟨?_, ?_, ?_, ?_⟩
  · intro reg d p hdl
    unfold register_tool
    simp
  · intro reg n d p r hn
    unfold register_tool
    simp [hn]
  · intro reg reg₁ n d₁ d₂ p₁ p₂ f₁ f₂ h
    unfold register_tool at h ⊢
    by_cases hn : n = ""
    · simp [hn] at h
    · simp only [if_neg hn] at h ⊢
      have hreg₁ : dictSet reg n (registered_entry n d₁ p₁ f₁) = reg₁ := by
        cases h
        rfl
      rw [← hreg₁, dictSet_dictSet_same]
  · intro reg reg' n d p f hnd hwf h
    unfold register_tool at h
    by_cases hn : n = ""
    · simp [hn] at h
    · simp only [if_neg hn] at h
      have hreg' : reg' = dictSet reg n (registered_entry n d p f) := by
        cases h
        rfl
      subst hreg'
      have hwf' : WellFormedRegistry (dictSet reg n (registered_entry n d p f)) := by
        intro q hq
        rcases mem_dictSet hq with h2 | h2
        · subst h2; rfl
        · exact hwf q h2
      have hkeys := dictKeys_dictSet reg n (registered_entry n d p f)
      have hnd' : (dictKeys (dictSet reg n (registered_entry n d p f))).Nodup := by
        rw [hkeys]
        by_cases hmem : n ∈ dictKeys reg
        · simp [hmem, hnd]
        · simp [hmem, List.nodup_append, hnd]
      have hnames := schemas_names_eq_keys _ hwf'
      refine ⟨hnd', hwf', hnames, hkeys, ?_⟩
      rw [hnames]
      apply List.count_eq_one_of_mem hnd'
      rw [hkeys]
      by_cases hmem : n ∈ dictKeys reg
      · simp [hmem]
      · simp [hmem]

/-- C7 witness: both rejections, a duplicate registration collapsing to the
second entry, and the schema-list shape, all at concrete inputs. -/
theorem C7_register_semantics_witness :
    register_tool [] "" "加法一" json_empty (.callable add_f1) =
      .error (.valueError "tool name 不可為空，且需為字串。")
  ∧ register_tool [] "add" "加法一" json_empty (.notCallable "not a function") =
      .error (.valueError "handler 必須可呼叫。")
  ∧ register_tool add_reg1 "add" "加法二" json_empty (.callable add_f2) =
      register_tool [] "add" "加法二" json_empty (.callable add_f2)
  ∧ ((dictKeys add_reg2).Nodup ∧ WellFormedRegistry add_reg2
      ∧ (get_llm_tool_schemas add_reg2).map (fun s => s.function.name) = dictKeys add_reg2
      ∧ dictKeys add_reg2 =
          (if "add" ∈ dictKeys add_reg1 then dictKeys add_reg1
           else dictKeys add_reg1 ++ ["add"])
      ∧ ((get_llm_tool_schemas add_reg2).map (fun s => s.function.name)).count "add" = 1) :=
  ⟨C7_register_semantics.1 [] "加法一" json_empty (.callable add_f1),
   C7_register_semantics.2.1 [] "add" "加法一" json_empty "not a function" (by decide),
   C7_register_semantics.2.2.1 [] add_reg1 "add" "加法一" "加法二" json_empty json_empty
     add_f1 add_f2 rfl,
   C7_register_semantics.2.2.2 add_reg1 add_reg2 "add" "加法二" json_empty add_f2
     (by decide) (by intro p hp; simp [add_reg1] at hp; simp [hp]) rfl⟩

/-! ## C3: sanitizing raw history (corrected) -/

/-- C3 counterexample: a turn whose content is the non-string value `5` is
kept as the string "5" — the claim says non-string content is dropped, but
the code applies `str()` first. -/
theorem C3_sanitize_counterexample :
    sanitize_history [{ role := some (.str "user"), content := some (.nonStr "5") }] 10
      = [{ role := "user", content := "5" }]
  ∧ ([{ role := "user", content := "5" }] : List Message) ≠ [] := by
  exact ⟨by decide, by decide⟩

/-- C3 (amended): `sanitize_history` stringifies role and content, drops a
turn exactly when its stringified content strips to blank (non-blank turns
are always kept, with the stripped content and the lowered role coerced to
"user"/"assistant"), and — for `maxItems ≥ 1` — keeps exactly the last
`maxItems` cleaned turns in their original relative order; it is a pure
function. -/
theorem C3_sanitize_amended (history : List RawTurn) (max_items : Nat)
    (r : RawTurn) (t : Message) (hm : 1 ≤ max_items) :
    sanitize_history history max_items
      = ((history.filterMap clean_turn).reverse.take max_items).reverse
  ∧ (py_strip ((r.content.getD (.str "")).toStr) = "" → clean_turn r = none)
  ∧ (py_strip ((r.content.getD (.str "")).toStr) ≠ "" →
      clean_turn r = some
        { role := if py_lower ((r.role.getD (.str "")).toStr) = "user"
                  then "user" else "assistant"
          content := py_strip ((r.content.getD (.str "")).toStr) })
  ∧ (clean_turn r = some t →
        (t.role = "user" ∨ t.role = "assistant")
      ∧ t.content = py_strip ((r.content.getD (.str "")).toStr)
      ∧ (py_lower ((r.role.getD (.str "")).toStr) = "user" → t.role = "user")
      ∧ (py_lower ((r.role.getD (.str "")).toStr) ≠ "user" → t.role = "assistant")) := by
  refine ⟨?_, ?_, ?_, ?_⟩
  · unfold sanitize_history
    by_cases hlen : max_items < (history.filterMap clean_turn).length
    · rw [if_pos hlen, if_neg (by omega : ¬ max_items = 0)]
      have h2 : ((history.filterMap clean_turn).reverse.take max_items).reverse
          = (history.filterMap clean_turn).drop
              ((history.filterMap clean_turn).length - max_items) := by
        rw [List.reverse_take]
        simp
      rw [h2]
    · rw [if_neg hlen]
      have hle : (history.filterMap clean_turn).reverse.length ≤ max_items := by
        simp
        omega
      rw [List.take_of_length_le hle, List.reverse_reverse]
  · intro hc
    unfold clean_turn
    simp [hc]
  · intro hc
    unfold clean_turn
    rw [if_neg hc]
  · intro hc
    unfold clean_turn at hc
    by_cases hblank : py_strip ((r.content.getD (.str "")).toStr) = ""
    · simp [hblank] at hc
    · simp [hblank] at hc
      subst hc
      by_cases hrole : py_lower ((r.role.getD (.str "")).toStr) = "user"
      · exact ⟨Or.inl (by simp [hrole]), rfl,
          fun _ => by simp [hrole], fun hx => absurd hrole hx⟩
      · exact ⟨Or.inr (by simp [hrole]), rfl,
          fun hx => absurd hx hrole, fun _ => by simp [hrole]⟩

/-- C3 witness: the amended statement evaluated on a concrete raw history
(upper-cased role, padded content, unknown role) with `maxItems = 1`. -/
theorem C3_sanitize_amended_witness :
    sanitize_history c3_history 1
      = ((c3_history.filterMap clean_turn).reverse.take 1).reverse
  ∧ (py_strip ((c3_raw.content.getD (.str "")).toStr) = "" → clean_turn c3_raw = none)
  ∧ (py_strip ((c3_raw.content.getD (.str "")).toStr) ≠ "" →
      clean_turn c3_raw = some
        { role := if py_lower ((c3_raw.role.getD (.str "")).toStr) = "user"
                  then "user" else "assistant"
          content := py_strip ((c3_raw.content.getD (.str "")).toStr) })
  ∧ (clean_turn c3_raw = some c3_msg →
        (c3_msg.role = "user" ∨ c3_msg.role = "assistant")
      ∧ c3_msg.content = py_strip ((c3_raw.content.getD (.str "")).toStr)
      ∧ (py_lower ((c3_raw.role.getD (.str "")).toStr) = "user" → c3_msg.role = "user")
      ∧ (py_lower ((c3_raw.role.getD (.str "")).toStr) ≠ "user" →
            c3_msg.role = "assistant")) :=
  C3_sanitize_amended c3_history 1 c3_raw c3_msg (by decide)

/-! ## C9: idempotence of sanitizing -/

/-- Cleaning a turn that is already in sanitized form changes nothing. -/
theorem clean_turn_msg_to_raw (t : Message)
    (hrole : t.role = "user" ∨ t.role = "assistant")
    (hstrip : py_strip t.content = t.content) (hne : t.content ≠ "") :
    clean_turn (msg_to_raw t) = some t := by
  unfold clean_turn msg_to_raw
  simp only [Option.getD_some, PyStrable.toStr]
  rw [hstrip, if_neg hne]
  rcases hrole with h1 | h1
  · rw [h1]
    rw [if_pos (show py_lower "user" = "user" by decide), ← h1]
  · rw [h1]
    rw [if_neg (show ¬ py_lower "assistant" = "user" by decide), ← h1]

/-- C9: on a history already in sanitized form whose length is within
`maxItems`, `sanitize_history` is the identity. -/
theorem C9_sanitize_idempotent (h : List Message) (m : Nat)
    (hsan : ∀ t ∈ h, (t.role = "user" ∨ t.role = "assistant")
              ∧ py_strip t.content = t.content ∧ t.content ≠ "")
    (hlen : h.length ≤ m) :
    sanitize_history (h.map msg_to_raw) m = h := by
  have hclean : ∀ (l : List Message),
      (∀ t ∈ l, (t.role = "user" ∨ t.role = "assistant")
          ∧ py_strip t.content = t.content ∧ t.content ≠ "") →
      (l.map msg_to_raw).filterMap clean_turn = l := by
    intro l
    induction l with
    | nil => intro _; rfl
    | cons t rest ih =>
        intro hl
        obtain ⟨h1, h2, h3⟩ := hl t (by simp)
        simp only [List.map_cons, List.filterMap_cons,
          clean_turn_msg_to_raw t h1 h2 h3]
        rw [ih (fun x hx => hl x (by simp [hx]))]
  unfold sanitize_history
  rw [hclean h hsan]
  rw [if_neg (by omega : ¬ m < h.length)]

/-! ## C1: plan-order result collection, independent of completion order -/

/-- Every key of `index_from k vs` is at least `k`. -/
theorem index_from_keys_ge {α : Type} (vs : List α) :
    ∀ (k : Nat), ∀ j ∈ (index_from k vs).map Prod.fst, k ≤ j := by
  induction vs with
  | nil => intro k j hj; simp [index_from] at hj
  | cons v rest ih =>
      intro k j hj
      simp only [index_from, List.map_cons, List.mem_cons] at hj
      rcases hj with h | h
      · omega
      · have := ih (k + 1) j h
        omega

/-- The keys of `index_from k vs` are pairwise distinct. -/
theorem index_from_keys_nodup {α : Type} (vs : List α) (k : Nat) :
    ((index_from k vs).map Prod.fst).Nodup := by
  induction vs generalizing k with
  | nil => simp [index_from]
  | cons v rest ih =>
      simp only [index_from, List.map_cons, List.nodup_cons]
      refine ⟨fun hmem => ?_, ih (k + 1)⟩
      have := index_from_keys_ge rest (k + 1) k hmem
      omega

/-- Index lookup does not depend on the order of a duplicate-free log. -/
theorem lookup_index_perm {β : Type} {l₁ l₂ : List (Nat × β)} (h : l₁.Perm l₂) :
    (l₂.map Prod.fst).Nodup → ∀ i, lookup_index l₁ i = lookup_index l₂ i := by
  induction h with
  | nil => intro _ i; rfl
  | cons x h ih =>
      intro hnd i
      obtain ⟨j, v⟩ := x
      rw [List.map_cons, List.nodup_cons] at hnd
      by_cases hj : j = i
      · simp [lookup_index, hj]
      · simp only [lookup_index, if_neg hj]
        exact ih hnd.2 i
  | swap x y l =>
      intro hnd i
      obtain ⟨j₁, v₁⟩ := x
      obtain ⟨j₂, v₂⟩ := y
      rw [List.map_cons, List.map_cons, List.nodup_cons] at hnd
      have hj12 : j₁ ≠ j₂ := by
        intro heq
        exact hnd.1 (by simp [heq])
      by_cases h1 : j₁ = i
      · by_cases h2 : j₂ = i
        · exact absurd (h1.trans h2.symm) hj12
        · simp [lookup_index, h1, h2]
      · by_cases h2 : j₂ = i
        · simp [lookup_index, h1, h2]
        · simp [lookup_index, h1, h2]
  | trans h₁ h₂ ih₁ ih₂ =>
      intro hnd i
      have hnd₂ := ((h₂.map Prod.fst).nodup_iff).2 hnd
      rw [ih₁ hnd₂ i, ih₂ hnd i]

/-- Looking future `k + i` up in the indexed future-outcome list gives the
`i`-th outcome. -/
theorem lookup_index_index_from {β : Type} (vs : List β) :
    ∀ (k i : Nat), lookup_index (index_from k vs) (k + i) = vs[i]? := by
  induction vs with
  | nil => intro k i; rfl
  | cons v rest ih =>
      intro k i
      cases i with
      | zero => simp [index_from, lookup_index]
      | succ i =>
          have hne : ¬ (k = k + (i + 1)) := by omega
          simp only [index_from, lookup_index, if_neg hne]
          rw [show k + (i + 1) = (k + 1) + i by omega, ih (k + 1) i]
          simp

/-- Collecting `vs.length` slots by index reproduces the list. -/
theorem filterMap_range_getElem {β : Type} (vs : List β) :
    (List.range vs.length).filterMap (fun i => vs[i]?) = vs := by
  induction vs with
  | nil => rfl
  | cons v rest ih =>
      rw [List.length_cons, List.range_succ_eq_map, List.filterMap_cons]
      simp only [List.getElem?_cons_zero, List.filterMap_map]
      have hcomp : ((fun i => (v :: rest)[i]?) ∘ Nat.succ) = (fun i => rest[i]?) := by
        funext i
        simp
      rw [hcomp, ih]

/-- A faithful completion log, read back by future index in submission
order, reproduces the future outcomes. -/
theorem gather_eq_future_values {β : Type} (vs : List β) (cs : List (Nat × β))
    (hlog : cs.Perm (index_from 0 vs)) :
    (List.range vs.length).filterMap (lookup_index cs) = vs := by
  have hlook := lookup_index_perm hlog (index_from_keys_nodup vs 0)
  have hgfun : ∀ i, lookup_index cs i = vs[i]? := by
    intro i
    rw [hlook i]
    have h := lookup_index_index_from vs 0 i
    simpa using h
  rw [show lookup_index cs = (fun i => vs[i]?) from funext hgfun]
  exact filterMap_range_getElem vs

/-- `future.result()` on an all-successful batch collects all the values. -/
theorem collect_results_ok (vs : List String) :
    collect_results (vs.map Except.ok) = .ok vs := by
  induction vs with
  | nil => rfl
  | cons v rest ih => simp [collect_results, ih, Except.map]

/-- When the argument map binds `raise_on_error` to nothing truthy, the
future\x27s outcome is the non-strict tool result. -/
theorem execute_single_tool_safe (reg : Registry) (item : PlanItem)
    (hflag : bound_raise_flag item.arguments = false) :
    execute_single_tool reg item = .ok (execute_single_tool_value reg item) := by
  unfold execute_single_tool execute_single_tool_value
  by_cases hname : item.tool_name = ""
  · simp [hname]
  · rw [if_neg hname, if_neg hname, hflag]
    obtain ⟨s, hs⟩ := execute_tool_false_is_ok reg item.tool_name
      (dictRemove item.arguments "raise_on_error")
    rw [hs]

/-- C1 counterexample: a plan item whose argument map carries a truthy
"raise_on_error" key binds the keyword-only flag, so the failing tool\x27s
exception escapes its future and `execute_plan` raises at
`future.result()` instead of returning one string per item. -/
theorem C1_execute_plan_counterexample :
    index_from 0 (future_values boom_registry raise_plan.plan_items) =
      [(0, Except.error (Raised.raiseStrTypeError
        ("[ToolError] 使用工具 \x27boom\x27 時執行例外: kaboom")))]
  ∧ execute_plan boom_registry raise_plan
        [(0, Except.error (Raised.raiseStrTypeError
          ("[ToolError] 使用工具 \x27boom\x27 時執行例外: kaboom")))] =
      .error (.raiseStrTypeError
        ("[ToolError] 使用工具 \x27boom\x27 時執行例外: kaboom"))
  ∧ ¬ ∃ o : ExecOutcome, execute_plan boom_registry raise_plan
        [(0, Except.error (Raised.raiseStrTypeError
          ("[ToolError] 使用工具 \x27boom\x27 時執行例外: kaboom")))] = .ok o := by
  have h1 : execute_plan boom_registry raise_plan
      [(0, Except.error (Raised.raiseStrTypeError
        ("[ToolError] 使用工具 \x27boom\x27 時執行例外: kaboom")))] =
      .error (.raiseStrTypeError
        ("[ToolError] 使用工具 \x27boom\x27 時執行例外: kaboom")) := rfl
  refine ⟨rfl, h1, ?_⟩
  rintro ⟨o, ho⟩
  rw [h1] at ho
  exact Except.noConfusion ho

/-- C1 (amended): for every plan none of whose items binds the
`raise_on_error` flag to a truthy value, and for every completion order of
the pool\x27s futures, `execute_plan` returns exactly one string per plan
item with slot `i` holding plan item `i`\x27s result; an empty plan
returns `[]` without entering a pool or reaching the registry. -/
theorem C1_execute_plan_plan_order (reg : Registry) (plan : ExecutionPlan)
    (completions : List (Nat × Except Raised String))
    (hsafe : ∀ item ∈ plan.plan_items, bound_raise_flag item.arguments = false)
    (hlog : completions.Perm (index_from 0 (future_values reg plan.plan_items))) :
    (plan.plan_items ≠ [] →
      execute_plan reg plan completions =
        .ok { results := plan.plan_items.map (execute_single_tool_value reg)
              pool_created := true
              invoked_tools := plan.plan_items.filterMap (fun item =>
                if item.tool_name = "" then none else some item.tool_name) })
  ∧ (plan.plan_items = [] →
      execute_plan reg plan completions =
        .ok { results := [], pool_created := false, invoked_tools := [] }) := by
  constructor
  · intro hne
    have hempty : ¬ plan.plan_items.isEmpty := by
      simpa using hne
    have hvals : future_values reg plan.plan_items
        = (plan.plan_items.map (execute_single_tool_value reg)).map Except.ok := by
      unfold future_values
      rw [List.map_map]
      exact List.map_congr_left (fun item hitem =>
        execute_single_tool_safe reg item (hsafe item hitem))
    have hlen : plan.plan_items.length = (future_values reg plan.plan_items).length := by
      simp [future_values]
    have hgather := gather_eq_future_values (future_values reg plan.plan_items)
      completions hlog
    simp only [execute_plan, if_neg hempty]
    unfold collect_in_plan_order
    rw [hlen, hgather, hvals, collect_results_ok]
  · intro h0
    simp [execute_plan, h0]

/-- C1 witness: a two-item plan whose futures complete in reverse order
still collects in plan order, and the empty plan returns the empty outcome
without a pool. -/
theorem C1_execute_plan_plan_order_witness :
    execute_plan two_tool_registry two_tool_plan
        [(1, Except.ok "B"), (0, Except.ok "A")] =
      .ok { results := ["A", "B"], pool_created := true, invoked_tools := ["a", "b"] }
  ∧ execute_plan two_tool_registry { plan_items := [], description := "空計畫" } [] =
      .ok { results := [], pool_created := false, invoked_tools := [] } := by
  constructor
  · have h := (C1_execute_plan_plan_order two_tool_registry two_tool_plan
      [(1, Except.ok "B"), (0, Except.ok "A")] (by decide)
      (List.Perm.swap ((0, Except.ok "A")) ((1, Except.ok "B")) [])).1 (by decide)
    exact h.trans (congrArg Except.ok (by decide))
  · exact (C1_execute_plan_plan_order two_tool_registry
      { plan_items := [], description := "空計畫" } [] (by decide) List.Perm.nil).2 rfl

/-! ## C4: meta questions short-circuit the pipeline -/

/-- C4: whenever the router classifies the question (with the sanitized
history) as meta, `aquery_with_history` returns the router\x27s direct
meta-answer and performs no rewrite model call, no planning model call and
no tool invocation. -/
theorem C4_meta_short_circuit (llm : LLMConnector) (reg : Registry)
    (pm : PromptConfig) (complex_question : String) (history : List RawTurn)
    (completions : List (Nat × Except Raised String))
    (hmeta : (is_meta_question llm complex_question
        (sanitize_history history 20)).is_meta = true) :
    aquery_with_history llm reg pm complex_question history completions =
      .ok { answer := handle_meta_conversation llm complex_question
              (sanitize_history history 20)
            rewrite_llm_calls := 0
            planning_llm_calls := 0
            tool_invocations := [] } := by
  unfold aquery_with_history
  simp [hmeta]

/-- C4 witness: 你是誰？ matches the keyword list, so the orchestrator
returns the direct chat answer with no rewrite, no planning and no tools. -/
theorem C4_meta_short_circuit_witness :
    aquery_with_history demo_llm [] { expert_prompts := [], common_prompts := [] }
      "你是誰？" [] [] =
      .ok { answer := "我是AI助理，很高興為您服務。"
            rewrite_llm_calls := 0
            planning_llm_calls := 0
            tool_invocations := [] } :=
  C4_meta_short_circuit demo_llm [] { expert_prompts := [], common_prompts := [] }
    "你是誰？" [] [] (by decide)

/-- C9 witness: a two-turn sanitized history within `maxItems = 3`. -/
theorem C9_sanitize_idempotent_witness :
    sanitize_history
      (([{ role := "user", content := "你好" },
         { role := "assistant", content := "您好" }] : List Message).map msg_to_raw) 3
      = [{ role := "user", content := "你好" },
         { role := "assistant", content := "您好" }] :=
  C9_sanitize_idempotent
    [{ role := "user", content := "你好" }, { role := "assistant", content := "您好" }]
    3 (by decide) (by decide)

end Breeze
